import Mathlib

/-!
Verification development for the container/task execution engine ("Executor")
specified by this repository. The repository ships the Executor's end-to-end
integration tests; the Executor implementation itself is an external binary,
so the operational model below is built from the specification document
(sections 3, 4.1, 4.2, 4.3, 4.5, 6, 7 and 8) and checked against the
behaviours the integration tests pin down.
-/

namespace ExecutorModel

/-- Modelled from the spec: lifecycle state enum of §4.2, missing from src/
(the Executor implementation is an external component). States follow
`reserved → initializing → created → running → completed`, `completed`
terminal. -/
inductive CState
  | reserved
  | initializing
  | created
  | running
  | completed
  deriving DecidableEq, Repr

/-- Modelled from the spec: RunResult of §3 — failed flag, failure reason
string, stopped flag, populated at the transition into `completed`. -/
structure RunResult where
  failed : Bool
  failureReason : String
  stopped : Bool
  deriving DecidableEq, Repr

/-- Empty run result carried before completion. -/
def emptyRunResult : RunResult :=
  { failed := false, failureReason := "", stopped := false }

/-- Modelled from the spec: per-container view of a registry record — whether
a monitor action was declared, the lifecycle state, and the run result. -/
structure ContainerModel where
  hasMonitor : Bool
  state : CState
  result : RunResult
  deriving DecidableEq, Repr

/-- Modelled from the spec: the events that drive a single container's state
machine (§4.2, §4.3): the run request, the asynchronous sandbox-creation
outcome, the primary action exiting with a status code, a monitor poll
outcome, and an explicit stop request. -/
inductive CEvent
  | runRequested
  | createSucceeded
  | createFailed
  | actionExited (code : Nat)
  | monitorPoll (healthy : Bool)
  | stopRequested
  deriving DecidableEq, Repr

/-- Modelled from the spec: §4.3 — process exit codes are translated into
RunResult values, nonzero exits giving reason "Exited with status N". -/
def exitResult (code : Nat) : RunResult :=
  if code = 0 then { failed := false, failureReason := "", stopped := false }
  else { failed := true, failureReason := "Exited with status " ++ toString code, stopped := false }

/-- Modelled from the spec: the container state machine of §4.2/§4.3, missing
from src/. `completed` is terminal. Run moves `reserved` to `initializing`.
A successful creation moves `initializing` to `created` when a monitor is
declared and directly to `running` otherwise; a failed creation moves it to
`completed` with reason "failed to initialize container". A healthy monitor
poll moves `created` to `running` (one-way); an unhealthy poll is a no-op in
`created` and forces `completed`/failed from `running` (failing after having
been healthy). The primary action exiting 0 is a no-op while a monitor is
declared (daemonization) and completes the container otherwise; a nonzero
exit always completes it as failed. Stop forces `completed` with the stopped
flag set. -/
def cstep (c : ContainerModel) (e : CEvent) : ContainerModel :=
  if c.state = CState.completed then c
  else
    match e with
    | CEvent.runRequested =>
        if c.state = CState.reserved then { c with state := CState.initializing } else c
    | CEvent.createSucceeded =>
        if c.state = CState.initializing then
          { c with state := if c.hasMonitor then CState.created else CState.running }
        else c
    | CEvent.createFailed =>
        if c.state = CState.initializing then
          { c with state := CState.completed,
                   result := { failed := true, failureReason := "failed to initialize container",
                               stopped := false } }
        else c
    | CEvent.monitorPoll healthy =>
        if c.hasMonitor then
          if healthy then
            if c.state = CState.created then { c with state := CState.running } else c
          else
            if c.state = CState.running then
              { c with state := CState.completed,
                       result := { failed := true, failureReason := "Monitoring failed",
                                   stopped := false } }
            else c
        else c
    | CEvent.actionExited code =>
        if c.state = CState.created ∨ c.state = CState.running then
          if c.hasMonitor ∧ code = 0 then c
          else { c with state := CState.completed, result := exitResult code }
        else c
    | CEvent.stopRequested =>
        { c with state := CState.completed, result := { c.result with stopped := true } }

/-- Folding a list of events through the container state machine. -/
def crun (c : ContainerModel) (es : List CEvent) : ContainerModel :=
  es.foldl cstep c

/-- Trajectory of container models visited while consuming an event list,
including the initial one. -/
def ctrace (c : ContainerModel) (es : List CEvent) : List ContainerModel :=
  List.scanl cstep c es

theorem crun_nil (c : ContainerModel) : crun c [] = c := rfl

theorem crun_cons (c : ContainerModel) (e : CEvent) (es : List CEvent) :
    crun c (e :: es) = crun (cstep c e) es := rfl

/-- Completed containers are fixed points of the state machine: `completed`
is terminal. -/
theorem cstep_completed (c : ContainerModel) (e : CEvent)
    (h : c.state = CState.completed) : cstep c e = c := by
  simp [cstep, h]

theorem crun_completed (c : ContainerModel) (es : List CEvent)
    (h : c.state = CState.completed) : crun c es = c := by
  induction es with
  | nil => rfl
  | cons e es ih => rw [crun_cons, cstep_completed c e h]; exact ih

/-- Invariant lemma for trajectories: a property holding initially and
preserved by every event occurring in the list holds at every visited model. -/
theorem ctrace_invariant (P : ContainerModel → Prop) :
    ∀ (es : List CEvent) (c : ContainerModel), P c →
      (∀ d e, e ∈ es → P d → P (cstep d e)) →
      ∀ x ∈ ctrace c es, P x := by
  intro es
  induction es with
  | nil =>
      intro c hc _ x hx
      simp [ctrace, List.scanl] at hx
      subst hx; exact hc
  | cons e es ih =>
      intro c hc hstep x hx
      simp only [ctrace, List.scanl, List.mem_cons] at hx
      rcases hx with rfl | hx
      · exact hc
      · exact ih (cstep c e) (hstep c e (List.mem_cons_self e es) hc)
          (fun d e' he' hd => hstep d e' (List.mem_cons_of_mem e he') hd) x hx

/-- Modelled from the spec: Resource Pool snapshot of §3/§4.1 — total or
remaining {memoryMB, diskMB, containerSlots}; Go `int` fields embedded as
`Int`. -/
structure ExecutorResources where
  memoryMB : Int
  diskMB : Int
  containers : Int
  deriving DecidableEq, Repr

/-- Componentwise sum of two resource snapshots. -/
def ExecutorResources.add (a b : ExecutorResources) : ExecutorResources :=
  { memoryMB := a.memoryMB + b.memoryMB
    diskMB := a.diskMB + b.diskMB
    containers := a.containers + b.containers }

/-- Zero resource snapshot. -/
def ExecutorResources.zero : ExecutorResources :=
  { memoryMB := 0, diskMB := 0, containers := 0 }

theorem ExecutorResources.ext_eq (a b : ExecutorResources)
    (hm : a.memoryMB = b.memoryMB) (hd : a.diskMB = b.diskMB)
    (hc : a.containers = b.containers) : a = b := by
  cases a; cases b; simp_all

@[simp] theorem ExecutorResources.add_zero (a : ExecutorResources) :
    a.add ExecutorResources.zero = a := by
  cases a; simp [ExecutorResources.add, ExecutorResources.zero]

@[simp] theorem ExecutorResources.zero_add (a : ExecutorResources) :
    ExecutorResources.zero.add a = a := by
  cases a; simp [ExecutorResources.add, ExecutorResources.zero]

theorem ExecutorResources.add_comm (a b : ExecutorResources) :
    a.add b = b.add a := by
  cases a; cases b
  simp only [ExecutorResources.add, ExecutorResources.mk.injEq]
  omega

theorem ExecutorResources.add_assoc (a b c : ExecutorResources) :
    (a.add b).add c = a.add (b.add c) := by
  cases a; cases b; cases c
  simp only [ExecutorResources.add, ExecutorResources.mk.injEq]
  omega

/-- Modelled from the spec: §4.1 `reserve(memoryMB, diskMB)` on the remaining
pool — it fails atomically, reserving nothing, when any of the three
dimensions (memory, disk, one container slot) would go negative. -/
def reserve (r : ExecutorResources) (memoryMB diskMB : Int) : Option ExecutorResources :=
  if memoryMB ≤ r.memoryMB ∧ diskMB ≤ r.diskMB ∧ 1 ≤ r.containers then
    some { memoryMB := r.memoryMB - memoryMB
           diskMB := r.diskMB - diskMB
           containers := r.containers - 1 }
  else none

/-- Modelled from the spec: a container spec as submitted to
AllocateContainers (§3, §6) — guid, declared memory/disk, cpu weight, and
whether a monitor action is declared. -/
structure ContainerSpec where
  guid : String
  memoryMB : Int
  diskMB : Int
  cpuWeight : Int
  hasMonitor : Bool
  deriving DecidableEq, Repr

/-- Modelled from the spec: a registry record (§3) — the container's declared
identity and resources, whether its pool reservation is still held (released
by delete or by the pruning loop), its age in prune ticks while still
`reserved`, and the lifecycle core. -/
structure Container where
  guid : String
  memoryMB : Int
  diskMB : Int
  cpuWeight : Int
  reservationHeld : Bool
  age : Nat
  core : ContainerModel
  deriving DecidableEq, Repr

/-- Modelled from the spec: whole-executor state — total capacity, remaining
capacity (mutated by reserve/release), the registry, and the set of sandboxes
that currently exist in the external runtime (by guid). -/
structure ExecState where
  total : ExecutorResources
  remaining : ExecutorResources
  containers : List Container
  sandboxes : List String
  deriving DecidableEq, Repr

/-- Modelled from the spec: §6 admission errors of AllocateContainers. -/
inductive AllocError
  | guidNotSpecified
  | containerGuidNotAvailable
  | limitsInvalid
  | insufficientResourcesAvailable
  deriving DecidableEq, Repr

/-- Modelled from the spec: §6 not-found error for guid-addressed calls. -/
inductive ExecError
  | containerNotFound
  deriving DecidableEq, Repr

/-- Whether the registry holds a live record for a guid. -/
def hasGuid (s : ExecState) (g : String) : Bool :=
  s.containers.any fun c => c.guid == g

/-- Fresh registry record for an admitted spec: state `reserved`, reservation
held, age zero. -/
def mkRecord (spec : ContainerSpec) : Container :=
  { guid := spec.guid, memoryMB := spec.memoryMB, diskMB := spec.diskMB,
    cpuWeight := spec.cpuWeight, reservationHeld := true, age := 0,
    core := { hasMonitor := spec.hasMonitor, state := CState.reserved,
              result := emptyRunResult } }

/-- Modelled from the spec: admission of one container spec (§4.2, §6) -
cpuWeight above 100 is LimitsInvalid, an empty guid is GuidNotSpecified, a
guid already held by a live record is ContainerGuidNotAvailable, and a spec
the pool cannot fit is InsufficientResourcesAvailable; a failing spec leaves
the state untouched, an admitted one reserves capacity and appends a
`reserved` record. -/
def allocateOne (s : ExecState) (spec : ContainerSpec) : ExecState × Option AllocError :=
  if 100 < spec.cpuWeight then (s, some AllocError.limitsInvalid)
  else if spec.guid = "" then (s, some AllocError.guidNotSpecified)
  else if hasGuid s spec.guid then (s, some AllocError.containerGuidNotAvailable)
  else
    match reserve s.remaining spec.memoryMB spec.diskMB with
    | none => (s, some AllocError.insufficientResourcesAvailable)
    | some r => ({ s with remaining := r, containers := s.containers ++ [mkRecord spec] }, none)

/-- Accumulator step of the batch allocation fold: thread the state and
append the failing guid's error, if any, to the error map. -/
def allocateStep (acc : ExecState × List (String × AllocError)) (spec : ContainerSpec) :
    ExecState × List (String × AllocError) :=
  match allocateOne acc.1 spec with
  | (s, none) => (s, acc.2)
  | (s, some e) => (s, acc.2 ++ [(spec.guid, e)])

/-- Modelled from the spec: AllocateContainers (§6) — processes the batch in
order and returns a per-guid error map; the call itself always succeeds. -/
def allocateContainers (s : ExecState) (specs : List ContainerSpec) :
    ExecState × List (String × AllocError) :=
  specs.foldl allocateStep (s, [])

/-- Modelled from the spec: GetContainer (§6) as registry lookup. -/
def getContainer (s : ExecState) (g : String) : Option Container :=
  s.containers.find? fun c => c.guid == g

/-- Pointwise registry update of the record holding a guid. -/
def updateGuid (f : Container → Container) (g : String) (l : List Container) : List Container :=
  l.map fun c => if c.guid = g then f c else c

/-- Lifting a container event to a registry record. -/
def applyCore (e : CEvent) (c : Container) : Container :=
  { c with core := cstep c.core e }

/-- Applying a supervisor-originated container event to the executor state. -/
def containerEvent (s : ExecState) (g : String) (e : CEvent) : ExecState :=
  { s with containers := updateGuid (applyCore e) g s.containers }

/-- Modelled from the spec: RunContainer (§6) — ContainerNotFound for an
unknown guid, otherwise accepts synchronously and moves the record from
`reserved` to `initializing`; all later failures surface only through state
and events. -/
def runContainer (s : ExecState) (g : String) : ExecState × Option ExecError :=
  if hasGuid s g then (containerEvent s g CEvent.runRequested, none)
  else (s, some ExecError.containerNotFound)

/-- Modelled from the spec: StopContainer (§4.2, §6) — forces the record to
`completed` with the stopped flag set, regardless of the action's natural
exit; the sandbox is left in existence. -/
def stopContainer (s : ExecState) (g : String) : ExecState × Option ExecError :=
  if hasGuid s g then (containerEvent s g CEvent.stopRequested, none)
  else (s, some ExecError.containerNotFound)

/-- Reservation a record still holds against the pool. -/
def heldRes (c : Container) : ExecutorResources :=
  if c.reservationHeld then { memoryMB := c.memoryMB, diskMB := c.diskMB, containers := 1 }
  else ExecutorResources.zero

/-- Modelled from the spec: DeleteContainer (§4.2, §6) — valid from any
non-deleted state; releases the record's held reservation back to the pool,
removes the record, and destroys the sandbox. -/
def deleteContainer (s : ExecState) (g : String) : ExecState × Option ExecError :=
  match getContainer s g with
  | none => (s, some ExecError.containerNotFound)
  | some c =>
      ({ s with remaining := s.remaining.add (heldRes c),
                containers := s.containers.filter fun d => !(d.guid == g),
                sandboxes := s.sandboxes.filter fun h => !(h == g) }, none)

/-- Modelled from the spec: outcome of the asynchronous sandbox creation the
Process Supervisor requested (§4.3) — on success the sandbox starts existing
and the record advances out of `initializing`; on failure the record
completes with "failed to initialize container". -/
def createResult (s : ExecState) (g : String) (ok : Bool) : ExecState :=
  let hadInit := s.containers.any fun c => c.guid == g && c.core.state == CState.initializing
  let e := if ok then CEvent.createSucceeded else CEvent.createFailed
  { s with containers := updateGuid (applyCore e) g s.containers,
           sandboxes := if ok && hadInit then g :: s.sandboxes else s.sandboxes }

/-- Modelled from the spec: an out-of-band destruction of a sandbox in the
external runtime (§4.5) — the registry does not see it directly. -/
def destroySandbox (s : ExecState) (g : String) : ExecState :=
  { s with sandboxes := s.sandboxes.filter fun h => !(h == g) }

/-- Registry record forced to `completed`/failed by the pruning loop after
its sandbox disappeared; its reservation is released. -/
def completeMissing (c : Container) : Container :=
  { c with reservationHeld := false,
           core := { c.core with
                       state := CState.completed,
                       result := { failed := true, failureReason := "container missing",
                                   stopped := false } } }

/-- Modelled from the spec: per-record effect of one pruning tick (§4.5) —
a record still `reserved` ages by one tick and is removed (reservation
released) once it has survived a full tick; a `created` or `running` record
whose sandbox has disappeared is forced to `completed`/failed and its
reservation released; everything else is untouched. Returns the surviving
record (if any) and the resources released. -/
def pruneOne (sb : List String) (c : Container) : Option Container × ExecutorResources :=
  match c.core.state with
  | CState.reserved =>
      if 1 ≤ c.age then (none, heldRes c)
      else (some { c with age := c.age + 1 }, ExecutorResources.zero)
  | CState.created =>
      if sb.contains c.guid then (some c, ExecutorResources.zero)
      else (some (completeMissing c), heldRes c)
  | CState.running =>
      if sb.contains c.guid then (some c, ExecutorResources.zero)
      else (some (completeMissing c), heldRes c)
  | _ => (some c, ExecutorResources.zero)

/-- Sum of a list of resource snapshots. -/
def sumRes (l : List ExecutorResources) : ExecutorResources :=
  l.foldr ExecutorResources.add ExecutorResources.zero

/-- Modelled from the spec: one tick of the Recovery & Pruning Loop (§4.5) —
applies `pruneOne` across the registry and returns all released resources to
the remaining pool. -/
def pruneTick (s : ExecState) : ExecState :=
  { s with containers := ((s.containers.map (pruneOne s.sandboxes)).filterMap Prod.fst),
           remaining := s.remaining.add
             (sumRes ((s.containers.map (pruneOne s.sandboxes)).map Prod.snd)) }

/-- Modelled from the spec: the operations that mutate executor state — the
control API calls of §6 plus the supervisor, runtime and pruning events of
§4.3/§4.5. -/
inductive Op
  | allocate (specs : List ContainerSpec)
  | runC (g : String)
  | stopC (g : String)
  | deleteC (g : String)
  | create (g : String) (ok : Bool)
  | actionExited (g : String) (code : Nat)
  | monitorPoll (g : String) (healthy : Bool)
  | destroy (g : String)
  | prune

/-- One step of the whole-executor transition system. -/
def step (s : ExecState) : Op → ExecState
  | Op.allocate specs => (allocateContainers s specs).1
  | Op.runC g => (runContainer s g).1
  | Op.stopC g => (stopContainer s g).1
  | Op.deleteC g => (deleteContainer s g).1
  | Op.create g ok => createResult s g ok
  | Op.actionExited g code => containerEvent s g (CEvent.actionExited code)
  | Op.monitorPoll g healthy => containerEvent s g (CEvent.monitorPoll healthy)
  | Op.destroy g => destroySandbox s g
  | Op.prune => pruneTick s

/-- Sum of the reservations the registry's records still hold. -/
def heldSum (l : List Container) : ExecutorResources :=
  sumRes (l.map heldRes)

/-- Guids of the registry's records, in order. -/
def guidsOf (l : List Container) : List String :=
  l.map Container.guid

/-- Conservation law of §8: remaining plus the sum of active reservations
equals total capacity in all three dimensions. -/
def conserved (s : ExecState) : Prop :=
  s.remaining.add (heldSum s.containers) = s.total

/-- Executor state invariant: the conservation law together with guid
uniqueness in the registry (§3). -/
def Inv (s : ExecState) : Prop :=
  conserved s ∧ (guidsOf s.containers).Nodup

@[simp] theorem ExecutorResources.add_memoryMB (a b : ExecutorResources) :
    (a.add b).memoryMB = a.memoryMB + b.memoryMB := rfl

@[simp] theorem ExecutorResources.add_diskMB (a b : ExecutorResources) :
    (a.add b).diskMB = a.diskMB + b.diskMB := rfl

@[simp] theorem ExecutorResources.add_containers (a b : ExecutorResources) :
    (a.add b).containers = a.containers + b.containers := rfl

@[simp] theorem ExecutorResources.zero_memoryMB : ExecutorResources.zero.memoryMB = 0 := rfl

@[simp] theorem ExecutorResources.zero_diskMB : ExecutorResources.zero.diskMB = 0 := rfl

@[simp] theorem ExecutorResources.zero_containers : ExecutorResources.zero.containers = 0 := rfl

theorem ExecutorResources.add_left_comm (a b c : ExecutorResources) :
    a.add (b.add c) = b.add (a.add c) := by
  refine ExecutorResources.ext_eq _ _ ?_ ?_ ?_ <;> simp <;> omega

theorem ExecutorResources.add_add_add_comm (a b c d : ExecutorResources) :
    (a.add b).add (c.add d) = (a.add c).add (b.add d) := by
  refine ExecutorResources.ext_eq _ _ ?_ ?_ ?_ <;> simp <;> omega

@[simp] theorem heldSum_nil : heldSum [] = ExecutorResources.zero := rfl

@[simp] theorem heldSum_cons (c : Container) (l : List Container) :
    heldSum (c :: l) = (heldRes c).add (heldSum l) := rfl

theorem heldSum_append (l₁ l₂ : List Container) :
    heldSum (l₁ ++ l₂) = (heldSum l₁).add (heldSum l₂) := by
  induction l₁ with
  | nil => simp
  | cons c l ih => simp [ih, ExecutorResources.add_assoc]

@[simp] theorem sumRes_nil : sumRes [] = ExecutorResources.zero := rfl

@[simp] theorem sumRes_cons (r : ExecutorResources) (l : List ExecutorResources) :
    sumRes (r :: l) = r.add (sumRes l) := rfl

@[simp] theorem updateGuid_nil (f : Container → Container) (g : String) :
    updateGuid f g [] = [] := rfl

@[simp] theorem updateGuid_cons (f : Container → Container) (g : String)
    (c : Container) (l : List Container) :
    updateGuid f g (c :: l) = (if c.guid = g then f c else c) :: updateGuid f g l := rfl

@[simp] theorem guidsOf_nil : guidsOf [] = [] := rfl

@[simp] theorem guidsOf_cons (c : Container) (l : List Container) :
    guidsOf (c :: l) = c.guid :: guidsOf l := rfl

theorem guidsOf_append (l₁ l₂ : List Container) :
    guidsOf (l₁ ++ l₂) = guidsOf l₁ ++ guidsOf l₂ := by
  simp [guidsOf]

@[simp] theorem heldRes_applyCore (e : CEvent) (c : Container) :
    heldRes (applyCore e c) = heldRes c := by
  simp [heldRes, applyCore]

@[simp] theorem guid_applyCore (e : CEvent) (c : Container) :
    (applyCore e c).guid = c.guid := rfl

theorem guidsOf_updateGuid (f : Container → Container) (g : String) (l : List Container)
    (hf : ∀ c, (f c).guid = c.guid) : guidsOf (updateGuid f g l) = guidsOf l := by
  induction l with
  | nil => rfl
  | cons c l ih =>
      simp only [updateGuid_cons, guidsOf_cons, List.cons.injEq]
      refine ⟨?_, ih⟩
      split <;> simp [hf]

theorem heldSum_updateGuid (f : Container → Container) (g : String) (l : List Container)
    (hf : ∀ c, heldRes (f c) = heldRes c) : heldSum (updateGuid f g l) = heldSum l := by
  induction l with
  | nil => rfl
  | cons c l ih =>
      simp only [updateGuid_cons, heldSum_cons]
      rw [ih]
      congr 1
      split <;> simp [hf]

theorem hasGuid_false_not_mem (s : ExecState) (g : String) (h : hasGuid s g = false) :
    g ∉ guidsOf s.containers := by
  intro hmem
  obtain ⟨c, hc, hg⟩ := List.mem_map.1 hmem
  have ht : s.containers.any (fun c => c.guid == g) = true :=
    List.any_eq_true.2 ⟨c, hc, by simp [hg]⟩
  rw [hasGuid, ht] at h
  exact Bool.noConfusion h

theorem find?_none_of_hasGuid_false (s : ExecState) (g : String) (h : hasGuid s g = false) :
    s.containers.find? (fun c => c.guid == g) = none := by
  rw [List.find?_eq_none]
  intro c hc hp
  have ht : s.containers.any (fun c => c.guid == g) = true :=
    List.any_eq_true.2 ⟨c, hc, hp⟩
  rw [hasGuid, ht] at h
  exact Bool.noConfusion h

theorem find?_append_left_none {α : Type} {p : α → Bool} (l₁ l₂ : List α)
    (h : l₁.find? p = none) : (l₁ ++ l₂).find? p = l₂.find? p := by
  induction l₁ with
  | nil => rfl
  | cons a l ih =>
      rcases hpa : p a with _ | _
      · rw [List.find?_cons_of_neg _ (by simp [hpa])] at h
        rw [List.cons_append, List.find?_cons_of_neg _ (by simp [hpa])]
        exact ih h
      · rw [List.find?_cons_of_pos _ hpa] at h
        exact Option.noConfusion h

theorem getContainer_some_hasGuid (s : ExecState) (g : String) (c : Container)
    (h : getContainer s g = some c) : hasGuid s g = true := by
  unfold getContainer at h
  have hmem := List.mem_of_find?_eq_some h
  have hp := List.find?_some h
  exact List.any_eq_true.2 ⟨c, hmem, hp⟩

theorem find?_updateGuid (f : Container → Container) (g : String)
    (hf : ∀ c, (f c).guid = c.guid) (l : List Container) :
    (updateGuid f g l).find? (fun c => c.guid == g) =
      (l.find? (fun c => c.guid == g)).map f := by
  induction l with
  | nil => rfl
  | cons c l ih =>
      simp only [updateGuid_cons]
      by_cases hc : c.guid = g
      · rw [if_pos hc, List.find?_cons_of_pos _ (by simp [hf, hc]),
            List.find?_cons_of_pos _ (by simp [hc])]
        rfl
      · rw [if_neg hc, List.find?_cons_of_neg _ (by simp [hc]),
            List.find?_cons_of_neg _ (by simp [hc])]
        exact ih

theorem reserve_some (r : ExecutorResources) (m d : Int) (r' : ExecutorResources)
    (h : reserve r m d = some r') :
    r' = { memoryMB := r.memoryMB - m, diskMB := r.diskMB - d,
           containers := r.containers - 1 } ∧
      m ≤ r.memoryMB ∧ d ≤ r.diskMB ∧ 1 ≤ r.containers := by
  unfold reserve at h
  split at h
  · rename_i hcond
    exact ⟨(Option.some.inj h).symm, hcond.1, hcond.2.1, hcond.2.2⟩
  · exact Option.noConfusion h

theorem allocateOne_inv (s : ExecState) (spec : ContainerSpec) (s' : ExecState)
    (h : allocateOne s spec = (s', none)) :
    hasGuid s spec.guid = false ∧
      reserve s.remaining spec.memoryMB spec.diskMB = some s'.remaining ∧
      s'.containers = s.containers ++ [mkRecord spec] ∧
      s'.total = s.total ∧ s'.sandboxes = s.sandboxes := by
  unfold allocateOne at h
  split at h
  · exact absurd (congrArg Prod.snd h) (by simp)
  · split at h
    · exact absurd (congrArg Prod.snd h) (by simp)
    · split at h
      · exact absurd (congrArg Prod.snd h) (by simp)
      · rename_i hcpu hguid htaken
        split at h
        · exact absurd (congrArg Prod.snd h) (by simp)
        · rename_i r hres
          have hs := congrArg Prod.fst h
          simp only at hs
          subst hs
          exact ⟨by simpa using htaken, by simpa using hres, rfl, rfl, rfl⟩

theorem allocateOne_fst (s : ExecState) (spec : ContainerSpec) :
    (allocateOne s spec).2 = none ∨ (allocateOne s spec).1 = s := by
  unfold allocateOne
  split
  · right; rfl
  · split
    · right; rfl
    · split
      · right; rfl
      · split
        · right; rfl
        · left; rfl

theorem Inv_allocateOne (s : ExecState) (spec : ContainerSpec) (h : Inv s) :
    Inv (allocateOne s spec).1 := by
  rcases herr : (allocateOne s spec).2 with _ | e
  · rcases hres : allocateOne s spec with ⟨s', err⟩
    rw [hres] at herr
    simp only at herr
    subst herr
    obtain ⟨hguid, hre, hcont, htot, hsand⟩ := allocateOne_inv s spec s' hres
    obtain ⟨hc, hn⟩ := h
    obtain ⟨hr, -, -, -⟩ := reserve_some _ _ _ _ hre
    constructor
    · unfold conserved at hc ⊢
      rw [hcont, htot, heldSum_append]
      have h1 := congrArg ExecutorResources.memoryMB hc
      have h2 := congrArg ExecutorResources.diskMB hc
      have h3 := congrArg ExecutorResources.containers hc
      simp only [ExecutorResources.add_memoryMB, ExecutorResources.add_diskMB,
        ExecutorResources.add_containers] at h1 h2 h3
      refine ExecutorResources.ext_eq _ _ ?_ ?_ ?_ <;>
        simp [hr, heldRes, mkRecord] <;> omega
    · rw [hcont, guidsOf_append]
      have hnm := hasGuid_false_not_mem s spec.guid hguid
      rw [List.nodup_append]
      refine ⟨hn, by simp [guidsOf, mkRecord], ?_⟩
      intro x hx hg
      have hxg : x = spec.guid := by
        simp [guidsOf, mkRecord] at hg
        exact hg
      exact hnm (hxg ▸ hx)
  · rcases allocateOne_fst s spec with hnone | hsame
    · rw [herr] at hnone; exact Option.noConfusion hnone
    · rw [hsame]; exact h

theorem Inv_allocateFold (specs : List ContainerSpec) :
    ∀ (s : ExecState) (acc : List (String × AllocError)), Inv s →
      Inv (specs.foldl allocateStep (s, acc)).1 := by
  induction specs with
  | nil => intro s acc h; exact h
  | cons spec specs ih =>
      intro s acc h
      have h1 := Inv_allocateOne s spec h
      simp only [List.foldl_cons]
      rcases hres : allocateOne s spec with ⟨s', err⟩
      rw [hres] at h1
      simp only at h1
      rcases err with _ | e
      · have hstep : allocateStep (s, acc) spec = (s', acc) := by
          simp [allocateStep, hres]
        rw [hstep]
        exact ih s' acc h1
      · have hstep : allocateStep (s, acc) spec = (s', acc ++ [(spec.guid, e)]) := by
          simp [allocateStep, hres]
        rw [hstep]
        exact ih s' _ h1

theorem Inv_containerEvent (s : ExecState) (g : String) (e : CEvent) (h : Inv s) :
    Inv (containerEvent s g e) := by
  obtain ⟨hc, hn⟩ := h
  constructor
  · unfold conserved containerEvent at *
    simp only
    rw [heldSum_updateGuid _ _ _ (fun c => heldRes_applyCore e c)]
    exact hc
  · unfold containerEvent
    simp only
    rw [guidsOf_updateGuid (applyCore e) g s.containers (fun c => rfl)]
    exact hn

theorem heldSum_delete (g : String) :
    ∀ (l : List Container) (c : Container),
      (guidsOf l).Nodup →
      l.find? (fun d => d.guid == g) = some c →
      heldSum l = (heldRes c).add (heldSum (l.filter fun d => !(d.guid == g))) := by
  intro l
  induction l with
  | nil => intro c _ hfind; exact Option.noConfusion hfind
  | cons d l ih =>
      intro c hnd hfind
      have hnd' : (guidsOf l).Nodup := (List.nodup_cons.1 hnd).2
      by_cases hd : d.guid = g
      · rw [List.find?_cons_of_pos _ (by simp [hd])] at hfind
        have hcd : d = c := Option.some.inj hfind
        subst hcd
        have hnotin : ∀ e ∈ l, ¬ e.guid = g := by
          intro e he hge
          have hmem : d.guid ∈ guidsOf l := hd ▸ hge ▸ List.mem_map_of_mem Container.guid he
          exact (List.nodup_cons.1 hnd).1 hmem
        have hfilter : (l.filter fun d => !(d.guid == g)) = l := by
          rw [List.filter_eq_self]
          intro e he
          simp [hnotin e he]
        simp [List.filter_cons, hd, hfilter]
      · rw [List.find?_cons_of_neg _ (by simp [hd])] at hfind
        rw [heldSum_cons, ih c hnd' hfind]
        have hcons : ((d :: l).filter fun e => !(e.guid == g)) =
            d :: (l.filter fun e => !(e.guid == g)) := by
          simp [List.filter_cons, hd]
        rw [hcons, heldSum_cons, ExecutorResources.add_left_comm]

theorem Inv_delete (s : ExecState) (g : String) (h : Inv s) :
    Inv (deleteContainer s g).1 := by
  obtain ⟨hc, hn⟩ := h
  unfold deleteContainer
  rcases hfind : getContainer s g with _ | c
  · exact ⟨hc, hn⟩
  · unfold getContainer at hfind
    constructor
    · unfold conserved at hc ⊢
      simp only
      rw [ExecutorResources.add_assoc, ← heldSum_delete g s.containers c hn hfind]
      exact hc
    · simp only
      have hsub : (guidsOf (s.containers.filter fun d => !(d.guid == g))).Sublist
          (guidsOf s.containers) :=
        List.Sublist.map Container.guid (List.filter_sublist s.containers)
      exact List.Nodup.sublist hsub hn

theorem pruneOne_guid (sb : List String) (c c' : Container)
    (h : (pruneOne sb c).1 = some c') : c'.guid = c.guid := by
  rcases hst : c.core.state
  case reserved =>
      by_cases hage : 1 ≤ c.age
      · simp [pruneOne, hst, hage] at h
      · simp [pruneOne, hst, hage] at h
        subst h
        rfl
  case initializing =>
      simp [pruneOne, hst] at h
      subst h
      rfl
  case created =>
      by_cases hcon : c.guid ∈ sb <;>
        simp [pruneOne, hst, hcon] at h <;> subst h <;> rfl
  case running =>
      by_cases hcon : c.guid ∈ sb <;>
        simp [pruneOne, hst, hcon] at h <;> subst h <;> rfl
  case completed =>
      simp [pruneOne, hst] at h
      subst h
      rfl

theorem pruneOne_conserves (sb : List String) (c : Container) :
    (match (pruneOne sb c).1 with
      | none => ExecutorResources.zero
      | some c' => heldRes c').add (pruneOne sb c).2 = heldRes c := by
  rcases hst : c.core.state
  case reserved =>
      by_cases hage : 1 ≤ c.age <;> simp [pruneOne, hst, hage, heldRes]
  case initializing => simp [pruneOne, hst]
  case created =>
      by_cases hcon : c.guid ∈ sb <;>
        simp [pruneOne, hst, hcon, heldRes, completeMissing]
  case running =>
      by_cases hcon : c.guid ∈ sb <;>
        simp [pruneOne, hst, hcon, heldRes, completeMissing]
  case completed => simp [pruneOne, hst]

theorem heldSum_prune (sb : List String) (l : List Container) :
    (heldSum ((l.map (pruneOne sb)).filterMap Prod.fst)).add
      (sumRes ((l.map (pruneOne sb)).map Prod.snd)) = heldSum l := by
  induction l with
  | nil => simp
  | cons c l ih =>
      have hc := pruneOne_conserves sb c
      simp only [List.map_cons, List.filterMap_cons]
      rcases hp : (pruneOne sb c).1 with _ | c'
      · simp only [hp, ExecutorResources.zero_add] at hc
        simp only [sumRes_cons]
        rw [ExecutorResources.add_left_comm, ih, hc, heldSum_cons]
      · simp only [hp] at hc
        simp only [sumRes_cons, heldSum_cons]
        rw [ExecutorResources.add_add_add_comm, hc, ih]

theorem guidsOf_prune_sublist (sb : List String) (l : List Container) :
    (guidsOf ((l.map (pruneOne sb)).filterMap Prod.fst)).Sublist (guidsOf l) := by
  induction l with
  | nil => simp
  | cons c l ih =>
      simp only [List.map_cons, List.filterMap_cons]
      rcases hp : (pruneOne sb c).1 with _ | c'
      · exact List.Sublist.cons c.guid ih
      · simp only [guidsOf_cons]
        rw [pruneOne_guid sb c c' hp]
        exact List.Sublist.cons₂ c.guid ih

theorem Inv_prune (s : ExecState) (h : Inv s) : Inv (pruneTick s) := by
  obtain ⟨hc, hn⟩ := h
  constructor
  · unfold conserved pruneTick at *
    simp only
    rw [ExecutorResources.add_assoc,
      ExecutorResources.add_comm
        (sumRes ((s.containers.map (pruneOne s.sandboxes)).map Prod.snd))
        (heldSum ((s.containers.map (pruneOne s.sandboxes)).filterMap Prod.fst)),
      heldSum_prune]
    exact hc
  · unfold pruneTick
    simp only
    exact List.Nodup.sublist (guidsOf_prune_sublist s.sandboxes s.containers) hn

/-- Modelled from the spec: §5/§8 — every operation of the executor preserves
the conservation law and guid uniqueness. -/
theorem Inv_step (s : ExecState) (op : Op) (h : Inv s) : Inv (step s op) := by
  cases op with
  | allocate specs => exact Inv_allocateFold specs s [] h
  | runC g =>
      show Inv (runContainer s g).1
      unfold runContainer
      split
      · exact Inv_containerEvent s g CEvent.runRequested h
      · exact h
  | stopC g =>
      show Inv (stopContainer s g).1
      unfold stopContainer
      split
      · exact Inv_containerEvent s g CEvent.stopRequested h
      · exact h
  | deleteC g => exact Inv_delete s g h
  | create g ok =>
      show Inv (createResult s g ok)
      obtain ⟨hc, hn⟩ := h
      constructor
      · unfold conserved createResult at *
        simp only
        rw [heldSum_updateGuid _ _ _ (fun c => heldRes_applyCore _ c)]
        exact hc
      · unfold createResult
        simp only
        rw [guidsOf_updateGuid _ _ _ (fun c => guid_applyCore _ c)]
        exact hn
  | actionExited g code => exact Inv_containerEvent s g (CEvent.actionExited code) h
  | monitorPoll g healthy => exact Inv_containerEvent s g (CEvent.monitorPoll healthy) h
  | destroy g =>
      obtain ⟨hc, hn⟩ := h
      exact ⟨hc, hn⟩
  | prune => exact Inv_prune s h

theorem contains_filter_self (l : List String) (g : String) :
    (l.filter fun h => !(h == g)).contains g = false := by
  induction l with
  | nil => rfl
  | cons a l ih =>
      by_cases ha : a = g
      · simp [List.filter_cons, ha, ih]
      · simp [List.filter_cons, ha, List.contains_cons, Ne.symm ha, ih]

theorem crun_append (c : ContainerModel) (es₁ es₂ : List CEvent) :
    crun c (es₁ ++ es₂) = crun (crun c es₁) es₂ := by
  simp [crun]

theorem crun_fixed (c : ContainerModel) (es : List CEvent)
    (h : ∀ e ∈ es, cstep c e = c) : crun c es = c := by
  induction es with
  | nil => rfl
  | cons e es ih =>
      rw [crun_cons, h e (List.mem_cons_self e es)]
      exact ih (fun x hx => h x (List.mem_cons_of_mem e hx))

/-- Action exits and monitor polls are no-ops while the sandbox is still
being created: nothing is running yet. -/
theorem cstep_initializing_passive (c : ContainerModel) (e : CEvent)
    (hst : c.state = CState.initializing)
    (he : (∃ k, e = CEvent.actionExited k) ∨ ∃ b, e = CEvent.monitorPoll b) :
    cstep c e = c := by
  rcases he with ⟨k, rfl⟩ | ⟨b, rfl⟩
  · simp [cstep, hst]
  · cases b <;> simp [cstep, hst]

/-- Only a successful sandbox creation can bring a container into the
`created` or `running` states. -/
theorem cstep_no_create_entry (d : ContainerModel) (e : CEvent)
    (he : e ≠ CEvent.createSucceeded)
    (hd : d.state ≠ CState.created ∧ d.state ≠ CState.running) :
    (cstep d e).state ≠ CState.created ∧ (cstep d e).state ≠ CState.running := by
  obtain ⟨h1, h2⟩ := hd
  by_cases hcomp : d.state = CState.completed
  · rw [cstep_completed d e hcomp]; exact ⟨h1, h2⟩
  · cases e with
    | runRequested =>
        by_cases hr : d.state = CState.reserved <;> simp [cstep, hcomp, hr, h1, h2]
    | createSucceeded => exact absurd rfl he
    | createFailed =>
        by_cases hi : d.state = CState.initializing <;> simp [cstep, hcomp, hi, h1, h2]
    | monitorPoll b =>
        cases b <;> simp [cstep, hcomp, h1, h2]
    | actionExited k =>
        simp [cstep, hcomp, h1, h2]
    | stopRequested => simp [cstep, hcomp]

/-- While a monitor is declared and the container sits in `created`, failed
polls and clean exits of the primary action change nothing. -/
theorem cstep_created_stable (c : ContainerModel) (e : CEvent)
    (hm : c.hasMonitor = true) (hst : c.state = CState.created)
    (he : e = CEvent.monitorPoll false ∨ e = CEvent.actionExited 0) :
    cstep c e = c := by
  rcases he with rfl | rfl
  · simp [cstep, hst, hm]
  · simp [cstep, hst, hm]

/-- A record in the `running` state never falls back to `created`, whatever
event arrives. -/
theorem running_one_way (d : ContainerModel) (e : CEvent)
    (hd : d.state = CState.running) : (cstep d e).state ≠ CState.created := by
  cases e with
  | runRequested => simp [cstep, hd]
  | createSucceeded => simp [cstep, hd]
  | createFailed => simp [cstep, hd]
  | monitorPoll b =>
      cases b
      · by_cases hmon : d.hasMonitor = true <;> simp [cstep, hd, hmon]
      · simp [cstep, hd]
  | actionExited k =>
      by_cases hk : d.hasMonitor = true ∧ k = 0 <;> simp [cstep, hd, hk]
  | stopRequested => simp [cstep, hd]

theorem mem_hasGuid_false (s : ExecState) (g : String) (h : hasGuid s g = false) :
    ∀ c ∈ s.containers, (c.guid == g) = false := by
  intro c hc
  rcases hcg : c.guid == g with _ | _
  · rfl
  · have ht : s.containers.any (fun c => c.guid == g) = true :=
      List.any_eq_true.2 ⟨c, hc, hcg⟩
    rw [hasGuid, ht] at h
    exact Bool.noConfusion h

theorem foldl_allocateStep_acc (specs : List ContainerSpec) :
    ∀ (s : ExecState) (acc : List (String × AllocError)),
      specs.foldl allocateStep (s, acc) =
        ((specs.foldl allocateStep (s, [])).1,
          acc ++ (specs.foldl allocateStep (s, [])).2) := by
  induction specs with
  | nil => intro s acc; simp
  | cons spec specs ih =>
      intro s acc
      simp only [List.foldl_cons]
      rcases hres : allocateOne s spec with ⟨s', err⟩
      rcases err with _ | e
      · have h1 : allocateStep (s, acc) spec = (s', acc) := by simp [allocateStep, hres]
        have h2 : allocateStep (s, []) spec = (s', []) := by simp [allocateStep, hres]
        rw [h1, h2]
        exact ih s' acc
      · have h1 : allocateStep (s, acc) spec = (s', acc ++ [(spec.guid, e)]) := by
          simp [allocateStep, hres]
        have h2 : allocateStep (s, []) spec = (s', [(spec.guid, e)]) := by
          simp [allocateStep, hres]
        rw [h1, h2, ih s' (acc ++ [(spec.guid, e)]), ih s' [(spec.guid, e)]]
        simp

theorem allocateContainers_append (s : ExecState) (xs ys : List ContainerSpec) :
    allocateContainers s (xs ++ ys) =
      ((allocateContainers (allocateContainers s xs).1 ys).1,
        (allocateContainers s xs).2 ++
          (allocateContainers (allocateContainers s xs).1 ys).2) := by
  unfold allocateContainers
  rw [List.foldl_append]
  rcases h : List.foldl allocateStep (s, []) xs with ⟨s₁, m₁⟩
  exact foldl_allocateStep_acc ys s₁ m₁

/-- C1: resource accounting is a conservation law — a successful allocation
decrements remaining memory, disk and container slots by exactly the spec's
declared amounts; deleting the freshly allocated container restores the
remaining pool and the registry exactly; and every executor operation
preserves remaining + sum(held reservations) = total in all three
dimensions. -/
theorem claim_c1_resource_conservation :
    (∀ (s : ExecState) (spec : ContainerSpec) (s' : ExecState),
        allocateOne s spec = (s', none) →
        s'.remaining.memoryMB = s.remaining.memoryMB - spec.memoryMB ∧
        s'.remaining.diskMB = s.remaining.diskMB - spec.diskMB ∧
        s'.remaining.containers = s.remaining.containers - 1) ∧
    (∀ (s : ExecState) (spec : ContainerSpec) (s' : ExecState),
        allocateOne s spec = (s', none) →
        (deleteContainer s' spec.guid).2 = none ∧
        (deleteContainer s' spec.guid).1.remaining = s.remaining ∧
        (deleteContainer s' spec.guid).1.containers = s.containers) ∧
    (∀ (s : ExecState) (op : Op), Inv s → Inv (step s op)) := by
  refine ⟨?_, ?_, fun s op h => Inv_step s op h⟩
  · intro s spec s' h
    obtain ⟨hguid, hre, hcont, htot, hsand⟩ := allocateOne_inv s spec s' h
    obtain ⟨hr, -, -, -⟩ := reserve_some _ _ _ _ hre
    simp [hr]
  · intro s spec s' h
    obtain ⟨hguid, hre, hcont, htot, hsand⟩ := allocateOne_inv s spec s' h
    obtain ⟨hr, -, -, -⟩ := reserve_some _ _ _ _ hre
    have hfind : s'.containers.find? (fun c => c.guid == spec.guid) =
        some (mkRecord spec) := by
      rw [hcont, find?_append_left_none _ _ (find?_none_of_hasGuid_false s spec.guid hguid),
        List.find?_cons_of_pos _ (by simp [mkRecord])]
    have hget : getContainer s' spec.guid = some (mkRecord spec) := hfind
    have hdel : deleteContainer s' spec.guid =
        ({ s' with remaining := s'.remaining.add (heldRes (mkRecord spec)),
                   containers := s'.containers.filter fun d => !(d.guid == spec.guid),
                   sandboxes := s'.sandboxes.filter fun h => !(h == spec.guid) }, none) := by
      simp [deleteContainer, hget]
    rw [hdel]
    refine ⟨rfl, ?_, ?_⟩
    · refine ExecutorResources.ext_eq _ _ ?_ ?_ ?_ <;>
        simp [hr, heldRes, mkRecord]
    · simp only
      rw [hcont, List.filter_append]
      have h1 : (s.containers.filter fun d => !(d.guid == spec.guid)) = s.containers := by
        rw [List.filter_eq_self]
        intro a ha
        simp [mem_hasGuid_false s spec.guid hguid a ha]
      have h2 : ([mkRecord spec].filter fun d => !(d.guid == spec.guid)) = [] := by
        simp [mkRecord]
      rw [h1, h2, List.append_nil]

/-- Witness for C1: allocating a 10MB/20MB spec on an empty executor with
100/100/5 capacity and deleting it again. -/
theorem claim_c1_resource_conservation_witness :
    ((allocateOne
        { total := { memoryMB := 100, diskMB := 100, containers := 5 },
          remaining := { memoryMB := 100, diskMB := 100, containers := 5 },
          containers := [], sandboxes := [] }
        { guid := "g", memoryMB := 10, diskMB := 20, cpuWeight := 50,
          hasMonitor := false }).1.remaining.memoryMB = 100 - 10) ∧
    ((deleteContainer
        (allocateOne
          { total := { memoryMB := 100, diskMB := 100, containers := 5 },
            remaining := { memoryMB := 100, diskMB := 100, containers := 5 },
            containers := [], sandboxes := [] }
          { guid := "g", memoryMB := 10, diskMB := 20, cpuWeight := 50,
            hasMonitor := false }).1 "g").1.remaining =
      { memoryMB := 100, diskMB := 100, containers := 5 }) ∧
    Inv (step
        { total := { memoryMB := 100, diskMB := 100, containers := 5 },
          remaining := { memoryMB := 100, diskMB := 100, containers := 5 },
          containers := [], sandboxes := [] } Op.prune) := by
  refine ⟨?_, ?_, ?_⟩
  · exact (claim_c1_resource_conservation.1
      { total := { memoryMB := 100, diskMB := 100, containers := 5 },
        remaining := { memoryMB := 100, diskMB := 100, containers := 5 },
        containers := [], sandboxes := [] }
      { guid := "g", memoryMB := 10, diskMB := 20, cpuWeight := 50, hasMonitor := false }
      _ (by decide)).1
  · exact (claim_c1_resource_conservation.2.1
      { total := { memoryMB := 100, diskMB := 100, containers := 5 },
        remaining := { memoryMB := 100, diskMB := 100, containers := 5 },
        containers := [], sandboxes := [] }
      { guid := "g", memoryMB := 10, diskMB := 20, cpuWeight := 50, hasMonitor := false }
      _ (by decide)).2.1
  · exact claim_c1_resource_conservation.2.2
      { total := { memoryMB := 100, diskMB := 100, containers := 5 },
        remaining := { memoryMB := 100, diskMB := 100, containers := 5 },
        containers := [], sandboxes := [] } Op.prune
      (by refine ⟨?_, ?_⟩
          · unfold conserved
            decide
          · decide)

/-- C2: AllocateContainers reports admission failures only through the
per-guid error map — cpuWeight above 100 gives LimitsInvalid, an empty guid
gives GuidNotSpecified, a live guid gives ContainerGuidNotAvailable,
over-capacity memory or disk gives InsufficientResourcesAvailable, each
leaving the state untouched — and a failing spec inside a batch changes
neither the final state nor the error entries of the other specs. -/
theorem claim_c2_admission_errors :
    (∀ (s : ExecState) (spec : ContainerSpec),
        100 < spec.cpuWeight →
        allocateOne s spec = (s, some AllocError.limitsInvalid)) ∧
    (∀ (s : ExecState) (spec : ContainerSpec),
        spec.cpuWeight ≤ 100 → spec.guid = "" →
        allocateOne s spec = (s, some AllocError.guidNotSpecified)) ∧
    (∀ (s : ExecState) (spec : ContainerSpec),
        spec.cpuWeight ≤ 100 → spec.guid ≠ "" → hasGuid s spec.guid = true →
        allocateOne s spec = (s, some AllocError.containerGuidNotAvailable)) ∧
    (∀ (s : ExecState) (spec : ContainerSpec),
        spec.cpuWeight ≤ 100 → spec.guid ≠ "" → hasGuid s spec.guid = false →
        s.remaining.memoryMB < spec.memoryMB ∨ s.remaining.diskMB < spec.diskMB →
        allocateOne s spec = (s, some AllocError.insufficientResourcesAvailable)) ∧
    (∀ (s : ExecState) (xs ys : List ContainerSpec) (bad : ContainerSpec) (e : AllocError),
        (allocateOne (allocateContainers s xs).1 bad).2 = some e →
        (allocateContainers s (xs ++ bad :: ys)).1 = (allocateContainers s (xs ++ ys)).1 ∧
        (allocateContainers s (xs ++ bad :: ys)).2 =
          (allocateContainers s xs).2 ++ (bad.guid, e) ::
            (allocateContainers (allocateContainers s xs).1 ys).2 ∧
        (allocateContainers s (xs ++ ys)).2 =
          (allocateContainers s xs).2 ++
            (allocateContainers (allocateContainers s xs).1 ys).2) := by
  refine ⟨?_, ?_, ?_, ?_, ?_⟩
  · intro s spec h
    simp [allocateOne, h]
  · intro s spec hcpu hg
    simp [allocateOne, hg, Int.not_lt.2 hcpu]
  · intro s spec hcpu hg htaken
    simp [allocateOne, hg, Int.not_lt.2 hcpu, htaken]
  · intro s spec hcpu hg htaken hover
    have hres : reserve s.remaining spec.memoryMB spec.diskMB = none := by
      unfold reserve
      rw [if_neg]
      intro hcond
      rcases hover with h | h
      · exact absurd hcond.1 (by omega)
      · exact absurd hcond.2.1 (by omega)
    simp [allocateOne, hg, Int.not_lt.2 hcpu, htaken, hres]
  · intro s xs ys bad e hbad
    rcases hb : allocateOne (allocateContainers s xs).1 bad with ⟨sb, eb⟩
    rw [hb] at hbad
    simp only at hbad
    subst hbad
    have hsb : sb = (allocateContainers s xs).1 := by
      rcases allocateOne_fst (allocateContainers s xs).1 bad with hnone | hsame
      · rw [hb] at hnone; exact absurd hnone (by simp)
      · rw [hb] at hsame; exact hsame
    subst hsb
    have hcons : allocateContainers (allocateContainers s xs).1 (bad :: ys) =
        ((allocateContainers (allocateContainers s xs).1 ys).1,
          (bad.guid, e) :: (allocateContainers (allocateContainers s xs).1 ys).2) := by
      have hstepb : allocateStep ((allocateContainers s xs).1, []) bad =
          ((allocateContainers s xs).1, [(bad.guid, e)]) := by
        simp [allocateStep, hb]
      have hunfold : allocateContainers (allocateContainers s xs).1 (bad :: ys) =
          List.foldl allocateStep (allocateStep ((allocateContainers s xs).1, []) bad) ys := rfl
      rw [hunfold, hstepb, foldl_allocateStep_acc ys (allocateContainers s xs).1 [(bad.guid, e)]]
      simp [allocateContainers]
    have happ1 := allocateContainers_append s xs (bad :: ys)
    have happ2 := allocateContainers_append s xs ys
    rw [happ1, hcons, happ2]
    simp

/-- Witness for C2: three admission failures at concrete specs and a failing
middle spec inside a concrete batch that leaves the others untouched. -/
theorem claim_c2_admission_errors_witness :
    (allocateOne
        { total := { memoryMB := 100, diskMB := 100, containers := 5 },
          remaining := { memoryMB := 100, diskMB := 100, containers := 5 },
          containers := [], sandboxes := [] }
        { guid := "w", memoryMB := 0, diskMB := 0, cpuWeight := 101, hasMonitor := false } =
      ({ total := { memoryMB := 100, diskMB := 100, containers := 5 },
         remaining := { memoryMB := 100, diskMB := 100, containers := 5 },
         containers := [], sandboxes := [] }, some AllocError.limitsInvalid)) ∧
    (allocateOne
        { total := { memoryMB := 100, diskMB := 100, containers := 5 },
          remaining := { memoryMB := 100, diskMB := 100, containers := 5 },
          containers := [], sandboxes := [] }
        { guid := "", memoryMB := 0, diskMB := 0, cpuWeight := 0, hasMonitor := false } =
      ({ total := { memoryMB := 100, diskMB := 100, containers := 5 },
         remaining := { memoryMB := 100, diskMB := 100, containers := 5 },
         containers := [], sandboxes := [] }, some AllocError.guidNotSpecified)) ∧
    (allocateOne
        { total := { memoryMB := 100, diskMB := 100, containers := 5 },
          remaining := { memoryMB := 100, diskMB := 100, containers := 5 },
          containers := [], sandboxes := [] }
        { guid := "w", memoryMB := 999, diskMB := 0, cpuWeight := 0, hasMonitor := false } =
      ({ total := { memoryMB := 100, diskMB := 100, containers := 5 },
         remaining := { memoryMB := 100, diskMB := 100, containers := 5 },
         containers := [], sandboxes := [] }, some AllocError.insufficientResourcesAvailable)) ∧
    (allocateContainers
        { total := { memoryMB := 100, diskMB := 100, containers := 5 },
          remaining := { memoryMB := 100, diskMB := 100, containers := 5 },
          containers := [], sandboxes := [] }
        [{ guid := "a", memoryMB := 1, diskMB := 1, cpuWeight := 0, hasMonitor := false },
         { guid := "", memoryMB := 0, diskMB := 0, cpuWeight := 0, hasMonitor := false },
         { guid := "b", memoryMB := 1, diskMB := 1, cpuWeight := 0, hasMonitor := false }]).1 =
      (allocateContainers
        { total := { memoryMB := 100, diskMB := 100, containers := 5 },
          remaining := { memoryMB := 100, diskMB := 100, containers := 5 },
          containers := [], sandboxes := [] }
        [{ guid := "a", memoryMB := 1, diskMB := 1, cpuWeight := 0, hasMonitor := false },
         { guid := "b", memoryMB := 1, diskMB := 1, cpuWeight := 0, hasMonitor := false }]).1 := by
  refine ⟨?_, ?_, ?_, ?_⟩
  · exact claim_c2_admission_errors.1
      { total := { memoryMB := 100, diskMB := 100, containers := 5 },
        remaining := { memoryMB := 100, diskMB := 100, containers := 5 },
        containers := [], sandboxes := [] }
      { guid := "w", memoryMB := 0, diskMB := 0, cpuWeight := 101, hasMonitor := false }
      (by decide)
  · exact claim_c2_admission_errors.2.1
      { total := { memoryMB := 100, diskMB := 100, containers := 5 },
        remaining := { memoryMB := 100, diskMB := 100, containers := 5 },
        containers := [], sandboxes := [] }
      { guid := "", memoryMB := 0, diskMB := 0, cpuWeight := 0, hasMonitor := false }
      (by decide) (by decide)
  · exact claim_c2_admission_errors.2.2.2.1
      { total := { memoryMB := 100, diskMB := 100, containers := 5 },
        remaining := { memoryMB := 100, diskMB := 100, containers := 5 },
        containers := [], sandboxes := [] }
      { guid := "w", memoryMB := 999, diskMB := 0, cpuWeight := 0, hasMonitor := false }
      (by decide) (by decide) (by decide) (by decide)
  · exact (claim_c2_admission_errors.2.2.2.2
      { total := { memoryMB := 100, diskMB := 100, containers := 5 },
        remaining := { memoryMB := 100, diskMB := 100, containers := 5 },
        containers := [], sandboxes := [] }
      [{ guid := "a", memoryMB := 1, diskMB := 1, cpuWeight := 0, hasMonitor := false }]
      [{ guid := "b", memoryMB := 1, diskMB := 1, cpuWeight := 0, hasMonitor := false }]
      { guid := "", memoryMB := 0, diskMB := 0, cpuWeight := 0, hasMonitor := false }
      AllocError.guidNotSpecified (by decide)).1

/-- C3: when sandbox creation fails after RunContainer was accepted,
RunContainer itself returned no synchronous error, the container lands in
`completed` with RunResult.Failed set and FailureReason exactly "failed to
initialize container", and at no point of the trace is the container in the
`created` or `running` states. -/
theorem claim_c3_create_failure :
    (∀ (s : ExecState) (g : String) (c : Container),
        getContainer s g = some c → (runContainer s g).2 = none) ∧
    (∀ (c : ContainerModel) (es₁ es₂ : List CEvent),
        c.state = CState.initializing →
        (∀ e ∈ es₁, (∃ k, e = CEvent.actionExited k) ∨ ∃ b, e = CEvent.monitorPoll b) →
        CEvent.createSucceeded ∉ es₂ →
        crun c (es₁ ++ CEvent.createFailed :: es₂) =
          { c with state := CState.completed,
                   result := { failed := true,
                               failureReason := "failed to initialize container",
                               stopped := false } } ∧
        ∀ x ∈ ctrace c (es₁ ++ CEvent.createFailed :: es₂),
            x.state ≠ CState.created ∧ x.state ≠ CState.running) := by
  constructor
  · intro s g c hget
    simp [runContainer, getContainer_some_hasGuid s g c hget]
  · intro c es₁ es₂ hst hes₁ hns
    constructor
    · rw [crun_append, crun_fixed c es₁ (fun e he => cstep_initializing_passive c e hst (hes₁ e he)),
        crun_cons]
      have hfail : cstep c CEvent.createFailed =
          { c with state := CState.completed,
                   result := { failed := true,
                               failureReason := "failed to initialize container",
                               stopped := false } } := by
        simp [cstep, hst]
      rw [hfail]
      exact crun_completed _ es₂ rfl
    · refine ctrace_invariant
        (fun x => x.state ≠ CState.created ∧ x.state ≠ CState.running)
        (es₁ ++ CEvent.createFailed :: es₂) c ⟨by simp [hst], by simp [hst]⟩ ?_
      intro d e he hd
      refine cstep_no_create_entry d e ?_ hd
      rcases List.mem_append.1 he with hin | hin
      · rcases hes₁ e hin with ⟨k, rfl⟩ | ⟨b, rfl⟩ <;> simp
      · rcases List.mem_cons.1 hin with rfl | hin2
        · simp
        · intro heq; rw [heq] at hin2; exact hns hin2

/-- Witness for C3: a reserved container is accepted for run, and an
initializing container whose creation fails completes with the exact failure
result. -/
theorem claim_c3_create_failure_witness :
    (runContainer
        { total := { memoryMB := 10, diskMB := 10, containers := 2 },
          remaining := { memoryMB := 10, diskMB := 10, containers := 1 },
          containers := [{ guid := "g", memoryMB := 0, diskMB := 0, cpuWeight := 0,
                           reservationHeld := true, age := 0,
                           core := { hasMonitor := false, state := CState.reserved,
                                     result := emptyRunResult } }],
          sandboxes := [] } "g").2 = none ∧
    crun { hasMonitor := false, state := CState.initializing, result := emptyRunResult }
        ([] ++ CEvent.createFailed :: []) =
      { hasMonitor := false, state := CState.completed,
        result := { failed := true, failureReason := "failed to initialize container",
                    stopped := false } } := by
  constructor
  · exact claim_c3_create_failure.1 _ "g"
      { guid := "g", memoryMB := 0, diskMB := 0, cpuWeight := 0,
        reservationHeld := true, age := 0,
        core := { hasMonitor := false, state := CState.reserved,
                  result := emptyRunResult } } (by decide)
  · exact (claim_c3_create_failure.2
      { hasMonitor := false, state := CState.initializing, result := emptyRunResult }
      [] [] rfl (by simp) (by simp)).1

/-- C4: a container whose monitor action fails on every poll reaches
`created` after its sandbox is created and then stays exactly there: every
model visited afterwards equals the `created` one, so it never becomes
`running` or `completed` and its RunResult is never touched. -/
theorem claim_c4_monitor_never_healthy (c : ContainerModel) (es : List CEvent)
    (hm : c.hasMonitor = true)
    (hst : c.state = CState.initializing)
    (hes : ∀ e ∈ es, e = CEvent.monitorPoll false ∨ e = CEvent.actionExited 0) :
    (cstep c CEvent.createSucceeded).state = CState.created ∧
    ∀ x ∈ ctrace (cstep c CEvent.createSucceeded) es,
        x = cstep c CEvent.createSucceeded := by
  have hc' : cstep c CEvent.createSucceeded = { c with state := CState.created } := by
    simp [cstep, hst, hm]
  constructor
  · rw [hc']
  · refine ctrace_invariant (fun x => x = cstep c CEvent.createSucceeded) es
      (cstep c CEvent.createSucceeded) rfl ?_
    intro d e he hd
    rw [hd, hc']
    exact cstep_created_stable { c with state := CState.created } e hm rfl (hes e he)

/-- Witness for C4: the failing-monitor container stays in `created` across
two failed polls. -/
theorem claim_c4_monitor_never_healthy_witness :
    (cstep { hasMonitor := true, state := CState.initializing, result := emptyRunResult }
        CEvent.createSucceeded).state = CState.created ∧
    ∀ x ∈ ctrace (cstep { hasMonitor := true, state := CState.initializing,
                          result := emptyRunResult } CEvent.createSucceeded)
        [CEvent.monitorPoll false, CEvent.monitorPoll false],
      x = cstep { hasMonitor := true, state := CState.initializing,
                  result := emptyRunResult } CEvent.createSucceeded :=
  claim_c4_monitor_never_healthy
    { hasMonitor := true, state := CState.initializing, result := emptyRunResult }
    [CEvent.monitorPoll false, CEvent.monitorPoll false] rfl rfl (by simp)

/-- C5: a container in `created` whose monitor succeeds once moves to
`running`; if the monitor then fails, it completes with Failed=true; and
`running` is one-way — no event can take a running container back to
`created`. -/
theorem claim_c5_monitor_success_then_fail (c : ContainerModel)
    (hm : c.hasMonitor = true) (hst : c.state = CState.created) :
    (cstep c (CEvent.monitorPoll true)).state = CState.running ∧
    (∀ es : List CEvent,
        crun c (CEvent.monitorPoll true :: CEvent.monitorPoll false :: es) =
          { c with state := CState.completed,
                   result := { failed := true, failureReason := "Monitoring failed",
                               stopped := false } }) ∧
    (∀ (d : ContainerModel) (e : CEvent),
        d.state = CState.running → (cstep d e).state ≠ CState.created) := by
  have h1 : cstep c (CEvent.monitorPoll true) = { c with state := CState.running } := by
    simp [cstep, hst, hm]
  refine ⟨by rw [h1], ?_, fun d e hd => running_one_way d e hd⟩
  intro es
  rw [crun_cons, h1, crun_cons]
  have h2 : cstep { c with state := CState.running } (CEvent.monitorPoll false) =
      { c with state := CState.completed,
               result := { failed := true, failureReason := "Monitoring failed",
                           stopped := false } } := by
    simp [cstep, hm]
  rw [h2]
  exact crun_completed _ es rfl

/-- Witness for C5 at a concrete created container. -/
theorem claim_c5_monitor_success_then_fail_witness :
    (cstep { hasMonitor := true, state := CState.created, result := emptyRunResult }
        (CEvent.monitorPoll true)).state = CState.running ∧
    crun { hasMonitor := true, state := CState.created, result := emptyRunResult }
        [CEvent.monitorPoll true, CEvent.monitorPoll false] =
      { hasMonitor := true, state := CState.completed,
        result := { failed := true, failureReason := "Monitoring failed",
                    stopped := false } } := by
  have h := claim_c5_monitor_success_then_fail
    { hasMonitor := true, state := CState.created, result := emptyRunResult } rfl rfl
  exact ⟨h.1, h.2.1 []⟩

/-- C9: while a monitor action is declared, the primary action exiting 0 is a
no-op (the container keeps following the monitor), whereas a nonzero exit
from `created` or `running` forces `completed` with Failed=true and stays
completed even if every later monitor poll succeeds. -/
theorem claim_c9_action_exit_semantics (c : ContainerModel) (code : Nat)
    (hm : c.hasMonitor = true) :
    cstep c (CEvent.actionExited 0) = c ∧
    (code ≠ 0 → c.state = CState.created ∨ c.state = CState.running →
      (cstep c (CEvent.actionExited code)).state = CState.completed ∧
      (cstep c (CEvent.actionExited code)).result.failed = true ∧
      ∀ es : List CEvent, (∀ e ∈ es, e = CEvent.monitorPoll true) →
        crun (cstep c (CEvent.actionExited code)) es = cstep c (CEvent.actionExited code)) := by
  constructor
  · by_cases hcomp : c.state = CState.completed
    · exact cstep_completed c _ hcomp
    · by_cases hcr : c.state = CState.created ∨ c.state = CState.running <;>
        simp [cstep, hcomp, hcr, hm]
  · intro hcode hcr
    have hncomp : ¬ c.state = CState.completed := by
      rcases hcr with h | h <;> simp [h]
    have hstep : cstep c (CEvent.actionExited code) =
        { c with state := CState.completed, result := exitResult code } := by
      simp [cstep, hncomp, hcr, hcode]
    rw [hstep]
    refine ⟨rfl, by simp [exitResult, hcode], ?_⟩
    intro es _
    exact crun_completed _ es rfl

/-- Witness for C9: exit 0 is a no-op in `running`, exit 1 completes as
failed and two healthy polls later it is still the same completed model. -/
theorem claim_c9_action_exit_semantics_witness :
    cstep { hasMonitor := true, state := CState.running, result := emptyRunResult }
        (CEvent.actionExited 0) =
      { hasMonitor := true, state := CState.running, result := emptyRunResult } ∧
    (cstep { hasMonitor := true, state := CState.running, result := emptyRunResult }
        (CEvent.actionExited 1)).state = CState.completed ∧
    crun (cstep { hasMonitor := true, state := CState.running, result := emptyRunResult }
        (CEvent.actionExited 1)) [CEvent.monitorPoll true, CEvent.monitorPoll true] =
      cstep { hasMonitor := true, state := CState.running, result := emptyRunResult }
        (CEvent.actionExited 1) := by
  have h := claim_c9_action_exit_semantics
    { hasMonitor := true, state := CState.running, result := emptyRunResult } 1 rfl
  have h2 := h.2 (by decide) (Or.inr rfl)
  exact ⟨h.1, h2.1, h2.2.2 [CEvent.monitorPoll true, CEvent.monitorPoll true] (by simp)⟩

/-- C6: stopping a running container returns no error and forces its record
to `completed` with RunResult.Stopped=true, regardless of the action's
natural exit; the sandbox keeps existing after the stop, and only an
explicit delete removes it. -/
theorem claim_c6_stop_keeps_sandbox (s : ExecState) (g : String) (c : Container)
    (hget : getContainer s g = some c)
    (hrun : c.core.state = CState.running)
    (hsb : g ∈ s.sandboxes) :
    (stopContainer s g).2 = none ∧
    getContainer (stopContainer s g).1 g = some (applyCore CEvent.stopRequested c) ∧
    (applyCore CEvent.stopRequested c).core.state = CState.completed ∧
    (applyCore CEvent.stopRequested c).core.result.stopped = true ∧
    g ∈ (stopContainer s g).1.sandboxes ∧
    (deleteContainer (stopContainer s g).1 g).2 = none ∧
    g ∉ (deleteContainer (stopContainer s g).1 g).1.sandboxes := by
  have hasG := getContainer_some_hasGuid s g c hget
  have hstop : stopContainer s g = (containerEvent s g CEvent.stopRequested, none) := by
    simp [stopContainer, hasG]
  have hget2 : getContainer (containerEvent s g CEvent.stopRequested) g =
      some (applyCore CEvent.stopRequested c) := by
    show (updateGuid (applyCore CEvent.stopRequested) g s.containers).find?
        (fun d => d.guid == g) = some (applyCore CEvent.stopRequested c)
    rw [find?_updateGuid (applyCore CEvent.stopRequested) g (fun d => rfl) s.containers]
    have hfind : s.containers.find? (fun d => d.guid == g) = some c := hget
    rw [hfind]
    rfl
  have hcore : cstep c.core CEvent.stopRequested =
      { c.core with state := CState.completed,
                    result := { c.core.result with stopped := true } } := by
    simp [cstep, hrun]
  have hdel : deleteContainer (containerEvent s g CEvent.stopRequested) g =
      ({ containerEvent s g CEvent.stopRequested with
           remaining := (containerEvent s g CEvent.stopRequested).remaining.add
             (heldRes (applyCore CEvent.stopRequested c)),
           containers := (containerEvent s g CEvent.stopRequested).containers.filter
             fun d => !(d.guid == g),
           sandboxes := (containerEvent s g CEvent.stopRequested).sandboxes.filter
             fun h => !(h == g) }, none) := by
    simp [deleteContainer, hget2]
  rw [hstop]
  refine ⟨rfl, hget2, ?_, ?_, ?_, ?_, ?_⟩
  · simp [applyCore, hcore]
  · simp [applyCore, hcore]
  · exact hsb
  · rw [hdel]
  · rw [hdel]
    simp [containerEvent, List.mem_filter]

/-- Witness for C6 at a one-container executor with a live sandbox. -/
theorem claim_c6_stop_keeps_sandbox_witness :
    (stopContainer
        { total := { memoryMB := 64, diskMB := 64, containers := 3 },
          remaining := { memoryMB := 0, diskMB := 0, containers := 2 },
          containers := [{ guid := "g", memoryMB := 64, diskMB := 64, cpuWeight := 0,
                           reservationHeld := true, age := 0,
                           core := { hasMonitor := false, state := CState.running,
                                     result := emptyRunResult } }],
          sandboxes := ["g"] } "g").2 = none ∧
    (applyCore CEvent.stopRequested
        { guid := "g", memoryMB := 64, diskMB := 64, cpuWeight := 0,
          reservationHeld := true, age := 0,
          core := { hasMonitor := false, state := CState.running,
                    result := emptyRunResult } }).core.result.stopped = true ∧
    "g" ∉ (deleteContainer
        (stopContainer
          { total := { memoryMB := 64, diskMB := 64, containers := 3 },
            remaining := { memoryMB := 0, diskMB := 0, containers := 2 },
            containers := [{ guid := "g", memoryMB := 64, diskMB := 64, cpuWeight := 0,
                             reservationHeld := true, age := 0,
                             core := { hasMonitor := false, state := CState.running,
                                       result := emptyRunResult } }],
            sandboxes := ["g"] } "g").1 "g").1.sandboxes := by
  have h := claim_c6_stop_keeps_sandbox
    { total := { memoryMB := 64, diskMB := 64, containers := 3 },
      remaining := { memoryMB := 0, diskMB := 0, containers := 2 },
      containers := [{ guid := "g", memoryMB := 64, diskMB := 64, cpuWeight := 0,
                       reservationHeld := true, age := 0,
                       core := { hasMonitor := false, state := CState.running,
                                 result := emptyRunResult } }],
      sandboxes := ["g"] } "g"
    { guid := "g", memoryMB := 64, diskMB := 64, cpuWeight := 0,
      reservationHeld := true, age := 0,
      core := { hasMonitor := false, state := CState.running,
                result := emptyRunResult } } (by decide) rfl (by decide)
  exact ⟨h.1, h.2.2.2.1, h.2.2.2.2.2.2⟩

/-- C7: a running container whose sandbox is destroyed out-of-band is marked
`completed` and failed by the very next pruning tick, and its reserved
memory, disk and container slot return to the pool: remaining becomes total
capacity again. -/
theorem claim_c7_prune_reclaims (s : ExecState) (c : Container)
    (hcont : s.containers = [c])
    (hrun : c.core.state = CState.running)
    (_hheld : c.reservationHeld = true)
    (hinv : Inv s) :
    (pruneTick (destroySandbox s c.guid)).containers = [completeMissing c] ∧
    (completeMissing c).core.state = CState.completed ∧
    (completeMissing c).core.result.failed = true ∧
    (pruneTick (destroySandbox s c.guid)).remaining = s.total := by
  have hmem : c.guid ∉ (destroySandbox s c.guid).sandboxes := by
    simp [destroySandbox, List.mem_filter]
  have hpo : pruneOne (destroySandbox s c.guid).sandboxes c =
      (some (completeMissing c), heldRes c) := by
    simp [pruneOne, hrun, hmem]
  have hcont1 : (destroySandbox s c.guid).containers = [c] := hcont
  have hrem1 : (destroySandbox s c.guid).remaining = s.remaining := rfl
  have hrem : (pruneTick (destroySandbox s c.guid)).remaining =
      s.remaining.add (heldRes c) := by
    simp [pruneTick, hcont1, hpo, hrem1]
  have hc := hinv.1
  unfold conserved at hc
  rw [hcont] at hc
  simp only [heldSum_cons, heldSum_nil, ExecutorResources.add_zero] at hc
  refine ⟨?_, rfl, rfl, ?_⟩
  · simp [pruneTick, hcont1, hpo]
  · rw [hrem]
    exact hc

/-- Witness for C7 at a one-container executor whose only sandbox vanishes. -/
theorem claim_c7_prune_reclaims_witness :
    (pruneTick (destroySandbox
        { total := { memoryMB := 64, diskMB := 64, containers := 3 },
          remaining := { memoryMB := 0, diskMB := 0, containers := 2 },
          containers := [{ guid := "g", memoryMB := 64, diskMB := 64, cpuWeight := 0,
                           reservationHeld := true, age := 0,
                           core := { hasMonitor := false, state := CState.running,
                                     result := emptyRunResult } }],
          sandboxes := ["g"] }
        "g")).remaining = { memoryMB := 64, diskMB := 64, containers := 3 } := by
  have h := claim_c7_prune_reclaims
    { total := { memoryMB := 64, diskMB := 64, containers := 3 },
      remaining := { memoryMB := 0, diskMB := 0, containers := 2 },
      containers := [{ guid := "g", memoryMB := 64, diskMB := 64, cpuWeight := 0,
                       reservationHeld := true, age := 0,
                       core := { hasMonitor := false, state := CState.running,
                                 result := emptyRunResult } }],
      sandboxes := ["g"] }
    { guid := "g", memoryMB := 64, diskMB := 64, cpuWeight := 0,
      reservationHeld := true, age := 0,
      core := { hasMonitor := false, state := CState.running,
                result := emptyRunResult } }
    rfl rfl rfl
    (by refine ⟨?_, ?_⟩
        · unfold conserved
          decide
        · decide)
  exact h.2.2.2

/-- C10: a container that is allocated but never run does not stay reserved
forever — the allocation succeeds, the record shows up in the registry, and
after two pruning ticks the reserved record is gone and the remaining pool
is back to its pre-allocation value. -/
theorem claim_c10_reserved_record_pruned (s : ExecState) (spec : ContainerSpec)
    (hempty : s.containers = [])
    (hguid : spec.guid ≠ "")
    (hcpu : spec.cpuWeight ≤ 100)
    (hmem : spec.memoryMB ≤ s.remaining.memoryMB)
    (hdisk : spec.diskMB ≤ s.remaining.diskMB)
    (hslot : 1 ≤ s.remaining.containers) :
    (allocateContainers s [spec]).2 = [] ∧
    (allocateContainers s [spec]).1.containers = [mkRecord spec] ∧
    (pruneTick (pruneTick (allocateContainers s [spec]).1)).containers = [] ∧
    (pruneTick (pruneTick (allocateContainers s [spec]).1)).remaining = s.remaining := by
  have htaken : hasGuid s spec.guid = false := by simp [hasGuid, hempty]
  have hres : reserve s.remaining spec.memoryMB spec.diskMB =
      some { memoryMB := s.remaining.memoryMB - spec.memoryMB,
             diskMB := s.remaining.diskMB - spec.diskMB,
             containers := s.remaining.containers - 1 } := by
    unfold reserve
    rw [if_pos ⟨hmem, hdisk, hslot⟩]
  have halloc : allocateOne s spec =
      ({ s with remaining := { memoryMB := s.remaining.memoryMB - spec.memoryMB,
                               diskMB := s.remaining.diskMB - spec.diskMB,
                               containers := s.remaining.containers - 1 },
                containers := s.containers ++ [mkRecord spec] }, none) := by
    simp [allocateOne, hguid, Int.not_lt.2 hcpu, htaken, hres]
  have hstep : allocateContainers s [spec] =
      ({ s with remaining := { memoryMB := s.remaining.memoryMB - spec.memoryMB,
                               diskMB := s.remaining.diskMB - spec.diskMB,
                               containers := s.remaining.containers - 1 },
                containers := s.containers ++ [mkRecord spec] }, []) := by
    unfold allocateContainers
    simp only [List.foldl_cons, List.foldl_nil]
    simp [allocateStep, halloc]
  rw [hstep]
  refine ⟨rfl, by simp [hempty], ?_, ?_⟩
  · simp [pruneTick, hempty, pruneOne, mkRecord, heldRes]
  · refine ExecutorResources.ext_eq _ _ ?_ ?_ ?_ <;>
      simp [pruneTick, hempty, pruneOne, mkRecord, heldRes, Int.sub_add_cancel]

/-- Witness for C10 on an empty executor. -/
theorem claim_c10_reserved_record_pruned_witness :
    (pruneTick (pruneTick (allocateContainers
        { total := { memoryMB := 100, diskMB := 100, containers := 5 },
          remaining := { memoryMB := 100, diskMB := 100, containers := 5 },
          containers := [], sandboxes := [] }
        [{ guid := "g", memoryMB := 5, diskMB := 5, cpuWeight := 0,
           hasMonitor := false }]).1)).containers = [] ∧
    (pruneTick (pruneTick (allocateContainers
        { total := { memoryMB := 100, diskMB := 100, containers := 5 },
          remaining := { memoryMB := 100, diskMB := 100, containers := 5 },
          containers := [], sandboxes := [] }
        [{ guid := "g", memoryMB := 5, diskMB := 5, cpuWeight := 0,
           hasMonitor := false }]).1)).remaining =
      { memoryMB := 100, diskMB := 100, containers := 5 } := by
  have h := claim_c10_reserved_record_pruned
    { total := { memoryMB := 100, diskMB := 100, containers := 5 },
      remaining := { memoryMB := 100, diskMB := 100, containers := 5 },
      containers := [], sandboxes := [] }
    { guid := "g", memoryMB := 5, diskMB := 5, cpuWeight := 0, hasMonitor := false }
    rfl (by decide) (by decide) (by decide) (by decide) (by decide)
  exact ⟨h.2.2.1, h.2.2.2⟩

/-- Modelled from the spec: §3/§8 — the steps of a sequential (Serial) task
plan, missing from src/ (the action-execution engine is an external
collaborator): a step either announces a marker (its observable side effect)
or allocates unbounded memory. -/
inductive TaskStep
  | announce (msg : String)
  | allocateUnboundedMemory
  deriving DecidableEq, Repr

/-- Observable outcome of running a task: failure flag, failure reason, and
the announcements actually made, in order. -/
structure TaskResult where
  failed : Bool
  failureReason : String
  announcements : List String
  deriving DecidableEq, Repr

/-- Modelled from the spec: execution of a Serial plan (§8) — steps run in
order, an announce step records its marker, and under a declared memory
limit an unbounded allocation is killed with reason "out of memory"; the
first failing step halts the rest of the sequence. Without a memory limit
the allocation step is treated as succeeding. -/
def execSerial (memLimited : Bool) : List TaskStep → List String × Option String
  | [] => ([], none)
  | TaskStep.announce m :: rest =>
      let r := execSerial memLimited rest
      (m :: r.1, r.2)
  | TaskStep.allocateUnboundedMemory :: rest =>
      if memLimited then ([], some "out of memory")
      else execSerial memLimited rest

/-- Modelled from the spec: running a task under its declared MemoryMB —
a positive limit arms the memory hard-limit (§4.3), and a failing step
completes the task with Failed=true carrying the step's failure reason. -/
def runTask (memoryMB : Int) (steps : List TaskStep) : TaskResult :=
  let r := execSerial (decide (0 < memoryMB)) steps
  match r.2 with
  | none => { failed := false, failureReason := "", announcements := r.1 }
  | some reason => { failed := true, failureReason := reason, announcements := r.1 }

theorem execSerial_limited_shape (pres : List String) (posts : List TaskStep) :
    execSerial true (pres.map TaskStep.announce ++ TaskStep.allocateUnboundedMemory :: posts) =
      (pres, some "out of memory") := by
  induction pres with
  | nil => simp [execSerial]
  | cons m pres ih => simp [execSerial, ih]

/-- C8: a MemoryMB=10 task whose sequential plan contains an unbounded
memory allocation completes with Failed=true and a FailureReason containing
"out of memory"; every announce step before the failing one is observed and
no step after it ever runs. -/
theorem claim_c8_memory_limit_halts_serial (pres : List String) (posts : List TaskStep) :
    (runTask 10 (pres.map TaskStep.announce ++
        TaskStep.allocateUnboundedMemory :: posts)).failed = true ∧
    ("out of memory".data <:+:
      (runTask 10 (pres.map TaskStep.announce ++
        TaskStep.allocateUnboundedMemory :: posts)).failureReason.data) ∧
    (runTask 10 (pres.map TaskStep.announce ++
        TaskStep.allocateUnboundedMemory :: posts)).announcements = pres := by
  have hrun : runTask 10 (pres.map TaskStep.announce ++
      TaskStep.allocateUnboundedMemory :: posts) =
      { failed := true, failureReason := "out of memory", announcements := pres } := by
    unfold runTask
    rw [show decide ((0 : Int) < 10) = true from rfl, execSerial_limited_shape]
  rw [hrun]
  exact ⟨rfl, List.infix_refl _, rfl⟩

/-- Witness for C8 mirroring the integration test: a marker before the
memory overdose is announced, the one after is not. -/
theorem claim_c8_memory_limit_halts_serial_witness :
    (runTask 10 [TaskStep.announce "before-memory-overdose",
        TaskStep.allocateUnboundedMemory,
        TaskStep.announce "after-memory-overdose"]).failed = true ∧
    (runTask 10 [TaskStep.announce "before-memory-overdose",
        TaskStep.allocateUnboundedMemory,
        TaskStep.announce "after-memory-overdose"]).announcements =
      ["before-memory-overdose"] := by
  have h := claim_c8_memory_limit_halts_serial ["before-memory-overdose"]
    [TaskStep.announce "after-memory-overdose"]
  exact ⟨h.1, h.2.2⟩

end ExecutorModel

